import Mathlib

/-!
# Replicate Operator — shallow embedding and verification

A shallow embedding of the capture/replay engine of the Replicate
Operator browser extension:

* the recording controller of `background.js` (the final, declarative
  injection revision): the `recordAction` message filter, wait-step
  synthesis, save, and delete;
* the replay orchestrator of `handleRunFlow`: precondition checks and the
  abort-on-first-error step loop;
* the frame executor of `replay_script.js` (the frame-aware revision):
  `waitForElement` bounded polling and `executeStep`'s change branch;
* the frame observer of `content_script.js` (the "Mousedown-is-King"
  revision, which the design notes designate as authoritative): input
  coalescing and the flush-before-click policy;
* the selector resolver `getSelector` of the same revision.

Timestamps are modelled as `Nat` milliseconds (`Date.now()`), DOM
documents as finite trees, and the asynchronous message transports as
explicit oracles (`Nat → DispatchResult` for per-step dispatch replies,
`Nat → Option Elem` for `document.querySelector` snapshots at poll
times).  JavaScript's truthiness tests on strings (`if (element.id)`)
become emptiness tests; `null` becomes `Option`.
-/

namespace RepOp

/-- One recorded/replayed step, the tagged variant built by the recorder:
`goto` is created by `handleStartRecording` with `frameId 0`, `wait` is
synthesized by `handleRecordAction`, `click`/`change` are action reports
from a frame observer tagged with the sender's `frameId`. -/
inductive Step where
  | goto (url : String) (frameId : Nat)
  | wait (duration : Nat)
  | click (selector : String) (label : String) (frameId : Nat)
  | change (selector : String) (value : String) (frameId : Nat)
  deriving DecidableEq, Repr

namespace Step

/-- Test for `step.type === "wait"`, the only step kind the orchestrator's loop
does not dispatch to a frame. -/
def isWait : Step → Bool
  | .wait _ => true
  | _ => false

/-- Test for `step.type === "goto"`, the precondition check on `steps[0]`. -/
def isGoto : Step → Bool
  | .goto _ _ => true
  | _ => false

end Step

/-- An action report as produced by a frame observer (`recordAction`
messages): the payload before the controller tags it with the sender's
frame id. -/
inductive Action where
  | click (selector : String) (label : String)
  | change (selector : String) (value : String)
  deriving DecidableEq, Repr

/-- Embedding of the spread `...action` plus `frameId`: the controller turns a
report into a step by adding the sender's frame id. -/
def Action.toStep : Action → Nat → Step
  | .click s l, f => .click s l f
  | .change s v, f => .change s v f

/-- The background script's global recording state:
`isRecording`, `recordedSteps`, `lastActionTimestamp`, `recordingTabId`
(with `null` as `none`). -/
structure BgState where
  isRecording : Bool
  recordedSteps : List Step
  lastActionTimestamp : Nat
  recordingTabId : Option Nat
  deriving DecidableEq, Repr

/-- Embedding of `handleRecordAction(action, sender)` of the final `background.js`:
if more than 100 ms elapsed since `lastActionTimestamp`, first push a
synthesized wait step for the full gap, then push the action tagged with
the sender's frame id, and stamp the new timestamp. -/
def handleRecordAction (s : BgState) (a : Action) (frameId : Nat) (now : Nat) : BgState :=
  let withWait :=
    if now - s.lastActionTimestamp > 100 then
      s.recordedSteps ++ [Step.wait (now - s.lastActionTimestamp)]
    else
      s.recordedSteps
  { s with
    recordedSteps := withWait ++ [a.toStep frameId]
    lastActionTimestamp := now }

/-- A `recordAction` runtime message from a content script, together
with the sender data the listener inspects (`sender.tab.id`,
`sender.frameId`) and the arrival time (`Date.now()` inside the
handler). -/
structure Report where
  tabId : Nat
  frameId : Nat
  action : Action
  time : Nat
  deriving DecidableEq, Repr

/-- The content-script branch of the `chrome.runtime.onMessage` listener:
a `recordAction` report is handled only when `isRecording` is set and the
sender's tab is the bound recording tab; otherwise the message is
dropped and the state is untouched. -/
def onContentMessage (s : BgState) (r : Report) : BgState :=
  if s.isRecording = true ∧ s.recordingTabId = some r.tabId then
    handleRecordAction s r.action r.frameId r.time
  else
    s

/-- Processing a whole stream of incoming `recordAction` reports, in
arrival order. -/
def processReports (s : BgState) (rs : List Report) : BgState :=
  rs.foldl onContentMessage s

/-! ## Flow store

`chrome.storage.local` holds one object under the key `flows`, a plain
mapping from flow name to step sequence.  We model the object as an
association list; a JS object holds at most one binding per key, and the
three operations the background script performs on it are property read
(`savedFlows[name]`), property write (`savedFlows[name] = steps`, which
overwrites an existing binding or adds a new one), and property removal
(`delete savedFlows[name]`, a no-op on a missing key). -/

/-- The stored `flows` object: name → step sequence. -/
abbrev Flows : Type := List (String × List Step)

/-- Embedding of `savedFlows[name]` — property read, `undefined` as `none`. -/
def flowsGet (fs : Flows) (n : String) : Option (List Step) :=
  (fs.find? (fun p => p.1 == n)).map Prod.snd

/-- Embedding of `savedFlows[name] = steps` — overwrite the binding when the key is
present, otherwise add it. -/
def flowsSet (fs : Flows) (n : String) (v : List Step) : Flows :=
  if fs.any (fun p => p.1 == n) then
    fs.map (fun p => if p.1 == n then (n, v) else p)
  else
    fs ++ [(n, v)]

/-- Embedding of `delete savedFlows[name]` — remove the binding; removing a missing
key changes nothing and raises no error. -/
def flowsDelete (fs : Flows) (n : String) : Flows :=
  fs.filter (fun p => ¬ p.1 == n)

/-- Embedding of `resetState()` of the final `background.js`: clear all four global
recording fields. -/
def resetState (s : BgState) : BgState :=
  { s with
    isRecording := false
    recordedSteps := []
    recordingTabId := none
    lastActionTimestamp := 0 }

/-- Embedding of `handleStopRecordingAndSave(flowName)`: a no-op unless recording;
otherwise store the session's steps under the given name (overwriting
any flow of that name) and reset the session. -/
def handleStopRecordingAndSave (s : BgState) (fs : Flows) (name : String) :
    Flows × BgState :=
  if s.isRecording = true then
    (flowsSet fs name s.recordedSteps, resetState s)
  else
    (fs, s)

/-- Embedding of `handleDeleteFlow(flowName)`: load the flows object, delete the
binding, store it back. -/
def handleDeleteFlow (fs : Flows) (name : String) : Flows :=
  flowsDelete fs name

/-! ## Replay orchestrator

`handleRunFlow(flowName)` of the final `background.js`: load the flow,
check the preconditions (present, non-empty, first step a `goto`), open
a tab at the `goto` url, and once the tab load completes run
`steps.slice(1)` strictly in order.  Each non-wait step is dispatched to
its frame with `chrome.tabs.sendMessage`; a dispatch can throw, resolve
to `undefined`, or resolve to an executor reply `{status, message}`.
The transport is modelled as an oracle from the loop-iteration index to
a `DispatchResult`.  The loop injects report attempts into the page:
one failure reporter (then `return`) or one completion reporter, each a
function serialized by `chrome.scripting.executeScript` and re-evaluated
in the page scope; whether such an attempt actually displays an alert
is a separate question (`runInjectedReport`), because the serialization
drops the function's closure and rebinds only the `args` values. -/

/-- One character of `JSON.stringify` string escaping (the characters
that can occur in recorded steps). -/
def jsonEscapeChar (c : Char) : String :=
  if c = '\\' then "\\\\"
  else if c = '"' then "\\\""
  else if c = '\n' then "\\n"
  else if c = '\t' then "\\t"
  else if c = '\r' then "\\r"
  else String.singleton c

/-- Embedding of `JSON.stringify` of a string value, with quotes. -/
def jsonStr (s : String) : String :=
  "\"" ++ String.join (s.toList.map jsonEscapeChar) ++ "\""

/-- Embedding of `JSON.stringify(step)` with the field order in which the recorder
builds each step object. -/
def jsonStep : Step → String
  | .goto url f =>
      "\x7b\"type\":\"goto\",\"url\":" ++ jsonStr url
        ++ ",\"frameId\":" ++ toString f ++ "\x7d"
  | .wait d =>
      "\x7b\"type\":\"wait\",\"duration\":" ++ toString d ++ "\x7d"
  | .click sel label f =>
      "\x7b\"type\":\"click\",\"selector\":" ++ jsonStr sel
        ++ ",\"label\":" ++ jsonStr label
        ++ ",\"frameId\":" ++ toString f ++ "\x7d"
  | .change sel v f =>
      "\x7b\"type\":\"change\",\"selector\":" ++ jsonStr sel
        ++ ",\"value\":" ++ jsonStr v
        ++ ",\"frameId\":" ++ toString f ++ "\x7d"

/-- A frame executor's reply object `{status, message}`. -/
structure ExecResponse where
  status : String
  message : String
  deriving DecidableEq, Repr

/-- Outcome of one `chrome.tabs.sendMessage` dispatch: the promise can
reject (modelled as `threw` with the error message), or resolve with no
reply object (`replied none`, JS `undefined`), or resolve with an
executor reply. -/
inductive DispatchResult where
  | threw (msg : String)
  | replied (resp : Option ExecResponse)
  deriving DecidableEq, Repr

/-- What the orchestrator's try/catch extracts from one dispatch:
`some msg` when the iteration ends in the catch block (either the
dispatch threw, or the reply exists and has `status === "error"`, in
which case `Error(response.message)` is thrown), `none` when the loop
proceeds to the next step. -/
def stepFailure : DispatchResult → Option String
  | .threw msg => some msg
  | .replied none => none
  | .replied (some r) => if r.status = "error" then some r.message else none

/-- One alert the orchestrator asks the replayed page to display via
`chrome.scripting.executeScript`: on a step failure, the reporter
`(msg) => alert(...)` closing over the loop variable `step` and taking
the error message through `args`; on exhausting all steps, the
parameterless completion reporter. -/
inductive ReportAttempt where
  | failure (st : Step) (msg : String)
  | completion
  deriving DecidableEq, Repr

/-- The text the failure reporter's template literal would produce with
`step` in scope — `Replay failed at step: ${JSON.stringify(step)}` plus
the reason — i.e. the message the source evidently intends the user to
see. -/
def intendedFailureAlert (st : Step) (msg : String) : String :=
  "Replay failed at step: " ++ jsonStep st ++ "\nError: " ++ msg

/-- Page-side evaluation of one injected reporter.
`chrome.scripting.executeScript` serializes `func` and re-evaluates it
in the page, losing its execution context: only the `args` values are
rebound.  The failure reporter's body references the free identifier
`step` from the orchestrator's loop, which is unbound in the page, so
evaluating its template literal throws a `ReferenceError` before
`alert` is invoked and nothing is displayed; the completion reporter
has no free identifiers and displays its alert. -/
def runInjectedReport : ReportAttempt → Except String String
  | .failure _ _ => .error "Uncaught ReferenceError: step is not defined"
  | .completion => .ok "Replicate Operator: Flow replay completed!"

/-- The alerts the user actually sees out of a run's report attempts:
those whose injected evaluation does not throw. -/
def displayedAlerts (rs : List ReportAttempt) : List String :=
  rs.filterMap (fun r => (runInjectedReport r).toOption)

/-- The `for (const step of steps.slice(1))` loop.  `i` is the current
iteration index into the slice and `env` the dispatch oracle.  Returns
the list of `(index, step)` pairs actually dispatched to a frame and
the report attempts injected into the page.  Wait steps only delay;
any other step is dispatched; a failing dispatch injects one failure
report and returns, aborting the rest of the loop. -/
def execLoop (env : Nat → DispatchResult) : Nat → List Step → List (Nat × Step) × List ReportAttempt
  | _, [] => ([], [ReportAttempt.completion])
  | i, st :: rest =>
      if st.isWait then
        execLoop env (i + 1) rest
      else
        match stepFailure (env i) with
        | some msg => ([(i, st)], [ReportAttempt.failure st msg])
        | none =>
            let r := execLoop env (i + 1) rest
            ((i, st) :: r.1, r.2)

/-- Observable outcome of `handleRunFlow`: either a precondition error
(the handler logs and returns before `chrome.tabs.create`, so no page
is opened and nothing is dispatched), or a started run (the tab opened
at the flow's initial url) with the dispatched steps and report
attempts of its loop. -/
inductive RunFlowResult where
  | precondError (logMsg : String)
  | started (url : String) (dispatched : List (Nat × Step)) (reports : List ReportAttempt)
  deriving DecidableEq, Repr

/-- Embedding of `handleRunFlow(flowName)`: precondition checks, then the replay
loop over `steps.slice(1)`. -/
def handleRunFlow (fs : Flows) (name : String) (env : Nat → DispatchResult) :
    RunFlowResult :=
  match flowsGet fs name with
  | none => .precondError "Error: Flow not found."
  | some [] => .precondError "Error: Flow not found."
  | some (st0 :: rest) =>
      match st0 with
      | .goto url _ =>
          let r := execLoop env 0 rest
          .started url r.1 r.2
      | _ => .precondError "Error: Flow must start with a \"goto\"."

/-- The iteration at index `i` on step `st` does not abort: either it is
a wait (never dispatched) or its dispatch does not end in the catch
block. -/
def iterOk (env : Nat → DispatchResult) (i : Nat) (st : Step) : Prop :=
  st.isWait = true ∨ stepFailure (env i) = none

instance (env : Nat → DispatchResult) (i : Nat) (st : Step) :
    Decidable (iterOk env i st) := by
  unfold iterOk
  infer_instance

/-- The `(index, step)` pairs dispatched by a run of the loop over a
prefix in which every iteration succeeds: every non-wait step in order. -/
def dispatchedPrefix : Nat → List Step → List (Nat × Step)
  | _, [] => []
  | i, st :: rest =>
      if st.isWait then dispatchedPrefix (i + 1) rest
      else (i, st) :: dispatchedPrefix (i + 1) rest

/-! ## Frame executor

`replay_script.js` (frame-aware revision): `waitForElement` polls
`document.querySelector(selector)` on a `setInterval` of 100 ms; at each
tick the element is checked first, and only when it is absent and the
elapsed time exceeds the timeout does the promise reject.  `executeStep`
resolves the selector and then performs the step on the found element.

The page is modelled by a snapshot oracle `q : Nat → Option Elem`
giving the `querySelector` result at each elapsed time; an `Elem`
carries the fields the executor reads or writes. -/

/-- A DOM element as the executor sees it: whether `element.value` is
defined (input-like), its value, content-editable flag and text, the
events dispatched on it, and how often `element.click()` was invoked. -/
structure Elem where
  hasValue : Bool
  value : String
  isContentEditable : Bool
  innerText : String
  dispatched : List String
  clicked : Nat
  deriving DecidableEq, Repr

/-- The `change` branch of `executeStep`: assign `step.value` to
`element.value` when it is defined, else to `element.innerText` when the
element is content-editable, else throw; after a successful assignment
dispatch bubbling `input`, `change` and `blur` events on the element. -/
def applyChange (e : Elem) (v : String) : Except String Elem :=
  if e.hasValue then
    .ok { e with
      value := v
      dispatched := e.dispatched ++ ["input", "change", "blur"] }
  else if e.isContentEditable then
    .ok { e with
      innerText := v
      dispatched := e.dispatched ++ ["input", "change", "blur"] }
  else
    .error "Cannot set value on a non-input, non-contenteditable element."

/-- The `setInterval` body of `waitForElement`, ticking at elapsed times
`100·k` ms: query the document; on a hit resolve with the element and
the tick time; on a miss, reject once the elapsed time exceeds the
timeout, else keep polling.  The first tick with `100·k > timeout` is
`k = timeout/100 + 1`, so `fuel = timeout/100` (with `k` starting at 1)
counts the ticks remaining before that final, still element-checking,
tick. -/
def pollTicks (q : Nat → Option Elem) : Nat → Nat → Option (Nat × Elem)
  | 0, k =>
      (match q (100 * k) with
       | some e => some (100 * k, e)
       | none => none)
  | fuel + 1, k =>
      (match q (100 * k) with
       | some e => some (100 * k, e)
       | none => pollTicks q fuel (k + 1))

/-- Embedding of `waitForElement(selector, timeout = 7000)`. -/
def waitForElement (q : Nat → Option Elem) (selector : String) (timeout : Nat) :
    Except String (Nat × Elem) :=
  match pollTicks q (timeout / 100) 1 with
  | some te => .ok te
  | none => .error ("Element not found for selector: " ++ selector)

/-- The selector field of a dispatched step.  `goto`/`wait` steps have
none (the loop never dispatches waits and a flow's only `goto` is its
head); for them `step.selector` is `undefined` and the model uses the
empty string. -/
def Step.selectorStr : Step → String
  | .click s _ _ => s
  | .change s _ _ => s
  | _ => ""

/-- What `executeStep` did to the page on success. -/
inductive ExecEffect where
  | clicked (t : Nat) (e : Elem)
  | changed (t : Nat) (e : Elem)
  | noop (t : Nat) (e : Elem)
  deriving DecidableEq, Repr

/-- Embedding of `executeStep(step)`: await `waitForElement(step.selector)` (a
rejection propagates as the step's failure), then switch on the step
type: `click` invokes the element's activation, `change` applies
`applyChange`, any other type only logs a warning. -/
def executeStep (q : Nat → Option Elem) (st : Step) : Except String ExecEffect :=
  match waitForElement q st.selectorStr 7000 with
  | .error msg => .error msg
  | .ok (t, e) =>
      match st with
      | .click _ _ _ => .ok (.clicked t { e with clicked := e.clicked + 1 })
      | .change _ v _ => (applyChange e v).map (fun e2 => .changed t e2)
      | _ => .ok (.noop t e)

/-! ## Selector resolver

`getSelector(element)` of the "Mousedown-is-King" `content_script.js`.
The document is a tree of nodes; an element is addressed by the path of
child indices from the root, so `parentElement` is `dropLast` and the
preceding siblings are the earlier children of the parent.  The
platform's `CSS.escape` is an environment function and is passed in as
`esc`; on identifiers without special characters it is the identity. -/

/-- A DOM node: `tagName` (as stored by the parser), `id` attribute
(`""` when absent, matching the JS truthiness test), other attributes,
and child elements in document order. -/
inductive DomNode where
  | mk (tag : String) (id : String) (attrs : List (String × String)) (children : List DomNode)

/-- Accessor for `element.tagName`. -/
def DomNode.tag : DomNode → String
  | .mk t _ _ _ => t

/-- Accessor for `element.id` (the empty string when the attribute is absent). -/
def DomNode.id : DomNode → String
  | .mk _ i _ _ => i

/-- The element's non-`id` attributes. -/
def DomNode.attrs : DomNode → List (String × String)
  | .mk _ _ a _ => a

/-- The element's child elements in document order. -/
def DomNode.children : DomNode → List DomNode
  | .mk _ _ _ c => c

/-- Embedding of `element.getAttribute(name)` — `null` as `none`. -/
def DomNode.getAttribute (n : DomNode) (a : String) : Option String :=
  (n.attrs.find? (fun p => p.1 == a)).map Prod.snd

/-- Resolve a path of child indices to the element it addresses. -/
def elemAt : DomNode → List Nat → Option DomNode
  | n, [] => some n
  | n, i :: p =>
      match n.children.get? i with
      | some c => elemAt c p
      | none => none

/-- The number of elements of the document matching the attribute
selector `tag[attr="v"]` (`document.querySelectorAll(...).length`):
tag names compare case-insensitively, the attribute value exactly. -/
def countMatches (tagLower attr v : String) : DomNode → Nat
  | .mk t _ as cs =>
      (if t.toLower = tagLower ∧ ((as.find? (fun p => p.1 == attr)).map Prod.snd) = some v
       then 1 else 0)
        + (cs.attach.map (fun c => countMatches tagLower attr v c.1)).sum
  decreasing_by
    have := List.sizeOf_lt_of_mem c.2
    simp only [DomNode.mk.sizeOf_spec]
    omega

/-- The fixed priority list of stable attributes. -/
def stableAttrs : List String :=
  ["data-testid", "name", "aria-label", "placeholder", "title", "alt"]

/-- The `for (const attr of stableAttrs)` loop: the first attribute that
is present (and truthy) and whose `tag[attr="value"]` selector matches
exactly one element wins. -/
def findStableAttr (esc : String → String) (doc : DomNode) (e : DomNode) :
    List String → Option String
  | [] => none
  | a :: as =>
      match e.getAttribute a with
      | some v =>
          if v ≠ "" then
            if countMatches e.tag.toLower a v doc = 1 then
              some (e.tag.toLower ++ "[" ++ a ++ "=\"" ++ esc v ++ "\"]")
            else findStableAttr esc doc e as
          else findStableAttr esc doc e as
      | none => findStableAttr esc doc e as

/-- The 1-based ordinal of the addressed element among the same-tag
siblings that precede it (`previousElementSibling` counting loop). -/
def ordinalAmongSameTag (doc : DomNode) (path : List Nat) : Nat :=
  match path.getLast?, elemAt doc path.dropLast, elemAt doc path with
  | some i, some parent, some e =>
      1 + ((parent.children.take i).filter (fun c => c.tag == e.tag)).length
  | _, _, _ => 1

/-- The positional-path `while` loop, walking from the element up: it
stops when the current element has no parent or is `body`, anchors on
(and keeps) an ancestor's `#id` when one appears, and otherwise
prepends ` > tag:nth-of-type(n)` for each level.  The recursion
produces the concatenation top-down. -/
def buildPath (esc : String → String) (doc : DomNode) : List Nat → String
  | [] => ""
  | i :: rest =>
      match elemAt doc (i :: rest) with
      | none => ""
      | some e =>
          if e.tag.toLower = "body" then ""
          else if e.id ≠ "" then "#" ++ esc e.id
          else
            buildPath esc doc (i :: rest).dropLast
              ++ (" > " ++ e.tag.toLower ++ ":nth-of-type("
                    ++ toString (ordinalAmongSameTag doc (i :: rest)) ++ ")")
  termination_by p => p.length
  decreasing_by
    simp only [List.length_dropLast, List.length_cons]
    omega

/-- Embedding of `getSelector(element)`: empty for a missing element, `#id` when the
element has an id, else the first winning stable attribute selector,
else the positional path rooted at `body`. -/
def getSelector (esc : String → String) (doc : DomNode) (path : List Nat) : String :=
  match elemAt doc path with
  | none => ""
  | some e =>
      if e.id ≠ "" then "#" ++ esc e.id
      else
        match findStableAttr esc doc e stableAttrs with
        | some sel => sel
        | none => ("body" ++ buildPath esc doc path).trim

/-! ## Frame observer

The "Mousedown-is-King" `content_script.js`: a single capture-phase
`mousedown` listener.  `recordInputChange` reads the settled content of
an editable element and reports a `change` action unless the
identity-keyed `lastRecordedValue` map already holds that value;
`onMouseDown` first flushes the currently focused editable element when
the press lands elsewhere, then reports the press itself as a `click`
action.  There is no `input` and no `blur` listener.

Page elements are identified by a number (JS object identity); the
resolver on the live page is abstracted as `sel : Nat → String` and the
element kinds as `page : Nat → PageElem`.  `PageEvent` is the raw
browser activity the listener can observe: an edit to a focused
element, a pure focus loss, or a pointer press. -/

/-- The per-element data the observer reads: uppercase `tagName`,
whether `element.value` is defined, and `isContentEditable`. -/
structure PageElem where
  tagName : String
  hasValue : Bool
  isContentEditable : Bool
  deriving DecidableEq, Repr

/-- Raw browser activity in the frame. `edit x v` is the user typing
into element `x` (the element is focused and its settled content
becomes `v`); `blur` is a pure focus loss (e.g. Tab away); `mousedown t`
is a pointer press on element `t`. -/
inductive PageEvent where
  | edit (x : Nat) (v : String)
  | blur
  | mousedown (t : Nat)
  deriving DecidableEq, Repr

/-- Observer-visible frame state: the focused element
(`document.activeElement`, `none` for body), the current content
(`value`/`innerText`) of each element, and the module's
`lastRecordedValue` map. -/
structure ObsState where
  active : Option Nat
  content : List (Nat × String)
  lastRecordedValue : List (Nat × String)
  deriving DecidableEq, Repr

/-- Identity-keyed map lookup. -/
def lookupStr (m : List (Nat × String)) (k : Nat) : Option String :=
  (m.find? (fun p => p.1 == k)).map Prod.snd

/-- Identity-keyed map update (`Map.prototype.set`). -/
def setStr (m : List (Nat × String)) (k : Nat) (v : String) : List (Nat × String) :=
  (k, v) :: m.filter (fun p => ¬ p.1 == k)

/-- The settled content `recordInputChange` reads from element `x`:
`innerText` when content-editable, else `value` when defined, else
nothing (the function returns without reporting). -/
def contentOf (page : Nat → PageElem) (s : ObsState) (x : Nat) : Option String :=
  if (page x).isContentEditable then some ((lookupStr s.content x).getD "")
  else if (page x).hasValue then some ((lookupStr s.content x).getD "")
  else none

/-- Embedding of `recordInputChange(target)`: read the settled content and report one
`change` action unless `lastRecordedValue` already maps the element to
that value; on a report, remember the value. -/
def recordInputChange (page : Nat → PageElem) (sel : Nat → String)
    (s : ObsState) (x : Nat) : ObsState × List Action :=
  match contentOf page s x with
  | none => (s, [])
  | some v =>
      if lookupStr s.lastRecordedValue x = some v then (s, [])
      else
        ({ s with lastRecordedValue := setStr s.lastRecordedValue x v },
         [Action.change (sel x) v])

/-- The flush guard of `onMouseDown`: the focused element is editable
(`isContentEditable` or an `INPUT`/`TEXTAREA`). -/
def flushable (page : Nat → PageElem) (a : Nat) : Bool :=
  (page a).isContentEditable || ((page a).tagName == "INPUT" || (page a).tagName == "TEXTAREA")

/-- Embedding of the label computation, `innerText` trimmed and cut to 50 characters, with the empty string as fallback. -/
def labelOf (s : ObsState) (t : Nat) : String :=
  (((lookupStr s.content t).getD "").trim).take 50

/-- Embedding of `onMouseDown(event)`: if the press lands away from a focused
editable element, flush that element's pending value first; then report
the press itself as a `click` on the mousedown target.  Afterwards the
browser's default action moves focus to the target when it is editable
(environment behaviour, not observer code). -/
def onMouseDown (page : Nat → PageElem) (sel : Nat → String)
    (s : ObsState) (t : Nat) : ObsState × List Action :=
  let flushed :=
    match s.active with
    | some a =>
        if a ≠ t ∧ flushable page a = true then recordInputChange page sel s a
        else (s, [])
    | none => (s, [])
  let clickReport := Action.click (sel t) (labelOf s t)
  ({ flushed.1 with active := if flushable page t then some t else none },
   flushed.2 ++ [clickReport])

/-- One browser event as the frame sees it: edits and pure blurs reach
no listener of this observer (it registers only `mousedown`), so they
only update the page state. -/
def obsStep (page : Nat → PageElem) (sel : Nat → String)
    (s : ObsState) : PageEvent → ObsState × List Action
  | .edit x v => ({ s with active := some x, content := setStr s.content x v }, [])
  | .blur => ({ s with active := none }, [])
  | .mousedown t => onMouseDown page sel s t

/-- Run a whole event trace, concatenating the reported actions. -/
def obsRun (page : Nat → PageElem) (sel : Nat → String)
    (s : ObsState) : List PageEvent → ObsState × List Action
  | [] => (s, [])
  | e :: es =>
      let r := obsStep page sel s e
      let rest := obsRun page sel r.1 es
      (rest.1, r.2 ++ rest.2)

/-- Whether a report is a `change` action. -/
def Action.isChange : Action → Bool
  | .change _ _ => true
  | _ => false

/-- Dispatch oracle for the C1 failing input: iteration 2 replies with
an executor error, everything else resolves with no reply object. -/
def env1 : Nat → DispatchResult := fun i =>
  if i = 2 then .replied (some ⟨"error", "Element not found for selector: #b"⟩)
  else .replied none

/-- Page for the C4 counterexample and witness: element 0 is a text
input, element 1 an ordinary `div`. -/
def page0 : Nat → PageElem := fun n =>
  if n = 0 then ⟨"INPUT", true, false⟩ else ⟨"DIV", false, false⟩

/-- A resolver on that page. -/
def sel0 : Nat → String := fun n => "#e" ++ toString n

/-- Document for the C5 witness: the button with id `submit-btn` sits
two levels deep, after a sibling subtree, and carries a competing
`name` attribute. -/
def doc5 : DomNode :=
  .mk "HTML" "" []
    [.mk "BODY" "" []
      [.mk "DIV" "" [] [.mk "SPAN" "" [] [], .mk "SPAN" "" [] []],
       .mk "DIV" "" [] [.mk "BUTTON" "submit-btn" [("name", "go")] []]]]

/-- Dispatch oracle for the C6 witness (never consulted). -/
def env6 : Nat → DispatchResult := fun _ => .replied none

/-- An input-like element used by the C7 counterexample. -/
def elemA : Elem := ⟨true, "", false, "", [], 0⟩

/-- Dispatch oracle for the C10 witness: every dispatch resolves to
`undefined`. -/
def env10 : Nat → DispatchResult := fun _ => .replied none

/-! ## Lemmas and claim theorems -/

lemma handleRecordAction_isRecording (s : BgState) (a : Action) (f t : Nat) :
    (handleRecordAction s a f t).isRecording = s.isRecording := rfl

lemma handleRecordAction_recordingTabId (s : BgState) (a : Action) (f t : Nat) :
    (handleRecordAction s a f t).recordingTabId = s.recordingTabId := rfl

lemma onContentMessage_isRecording (s : BgState) (r : Report) :
    (onContentMessage s r).isRecording = s.isRecording := by
  unfold onContentMessage; split <;> rfl

lemma onContentMessage_recordingTabId (s : BgState) (r : Report) :
    (onContentMessage s r).recordingTabId = s.recordingTabId := by
  unfold onContentMessage; split <;> rfl

lemma onContentMessage_of_not_recording (s : BgState) (r : Report)
    (h : s.isRecording = false) : onContentMessage s r = s := by
  unfold onContentMessage
  rw [h]
  simp

lemma onContentMessage_of_wrong_tab (s : BgState) (r : Report)
    (h : s.recordingTabId ≠ some r.tabId) : onContentMessage s r = s := by
  unfold onContentMessage
  split
  · exact absurd (by tauto) h
  · rfl

lemma processReports_of_not_recording (s : BgState) (rs : List Report)
    (h : s.isRecording = false) : processReports s rs = s := by
  induction rs with
  | nil => rfl
  | cons r rs ih =>
      unfold processReports at *
      rw [List.foldl_cons, onContentMessage_of_not_recording s r h, ih]

lemma processReports_filter_bound (s : BgState) (A : Nat) (rs : List Report)
    (hrec : s.isRecording = true) (hb : s.recordingTabId = some A) :
    processReports s rs = processReports s (rs.filter (fun r => r.tabId == A)) := by
  induction rs generalizing s with
  | nil => rfl
  | cons r rs ih =>
      unfold processReports at *
      rw [List.foldl_cons]
      by_cases htab : r.tabId = A
      · have hf : List.filter (fun x => x.tabId == A) (r :: rs)
            = r :: List.filter (fun x => x.tabId == A) rs := by
          simp [List.filter_cons, htab]
        rw [hf, List.foldl_cons]
        exact ih (onContentMessage s r)
          (by rw [onContentMessage_isRecording, hrec])
          (by rw [onContentMessage_recordingTabId, hb])
      · have hdrop : onContentMessage s r = s := by
          apply onContentMessage_of_wrong_tab
          rw [hb]
          simp only [ne_eq, Option.some.injEq]
          exact fun h => htab h.symm
        have hf : List.filter (fun x => x.tabId == A) (r :: rs)
            = List.filter (fun x => x.tabId == A) rs := by
          simp [List.filter_cons, htab]
        rw [hf, hdrop]
        exact ih s hrec hb

lemma find?_map_overwrite (fs : Flows) (n : String) (v : List Step)
    (h : ∃ q ∈ fs, q.1 = n) :
    (fs.map (fun p => if p.1 == n then (n, v) else p)).find?
      (fun p => p.1 == n) = some (n, v) := by
  induction fs with
  | nil => simp at h
  | cons p fs ih =>
      by_cases hp : p.1 = n
      · simp [List.find?_cons, hp]
      · have h' : ∃ q ∈ fs, q.1 = n := by
          rcases h with ⟨q, hq, hqn⟩
          rcases List.mem_cons.mp hq with rfl | hmem
          · exact absurd hqn hp
          · exact ⟨q, hmem, hqn⟩
        simpa [List.find?_cons, hp] using ih h'

lemma find?_map_overwrite_other (fs : Flows) (n m : String) (v : List Step)
    (hnm : m ≠ n) :
    (fs.map (fun p => if p.1 == n then (n, v) else p)).find?
      (fun p => p.1 == m) = fs.find? (fun p => p.1 == m) := by
  induction fs with
  | nil => rfl
  | cons p fs ih =>
      rw [List.map_cons]
      by_cases hp : p.1 = n
      · have hhead : (if p.1 == n then (n, v) else p) = (n, v) := by simp [hp]
        have h1 : ¬ ((n : String) = m) := fun h => hnm h.symm
        have h2 : ¬ (p.1 = m) := by rw [hp]; exact h1
        rw [hhead, List.find?_cons_of_neg _ (by simpa using h1),
          List.find?_cons_of_neg _ (by simpa using h2)]
        exact ih
      · have hhead : (if p.1 == n then (n, v) else p) = p := by simp [hp]
        rw [hhead]
        by_cases hq : p.1 = m
        · rw [List.find?_cons_of_pos _ (by simpa using hq),
            List.find?_cons_of_pos _ (by simpa using hq)]
        · rw [List.find?_cons_of_neg _ (by simpa using hq),
            List.find?_cons_of_neg _ (by simpa using hq)]
          exact ih

lemma flowsGet_set_same (fs : Flows) (n : String) (v : List Step) :
    flowsGet (flowsSet fs n v) n = some v := by
  unfold flowsGet flowsSet
  split
  case isTrue h =>
    rw [find?_map_overwrite fs n v (by simpa using h)]
    rfl
  case isFalse h =>
    have hnone : fs.find? (fun p => p.1 == n) = none := by
      rw [List.find?_eq_none]
      intro p hp
      simp only [List.any_eq_true, beq_iff_eq, not_exists, not_and] at h
      simpa using h p hp
    rw [List.find?_append, hnone]
    simp

lemma flowsGet_set_other (fs : Flows) (n m : String) (v : List Step)
    (hnm : m ≠ n) : flowsGet (flowsSet fs n v) m = flowsGet fs m := by
  unfold flowsGet flowsSet
  split
  case isTrue h =>
    rw [find?_map_overwrite_other fs n m v hnm]
  case isFalse h =>
    rw [List.find?_append]
    cases hfind : fs.find? (fun p => p.1 == m) with
    | some q => simp
    | none =>
        have h1 : ¬ ((n : String) = m) := fun h => hnm h.symm
        simp [List.find?_cons, h1]

lemma flowsGet_delete_other (fs : Flows) (n m : String) (hnm : m ≠ n) :
    flowsGet (flowsDelete fs n) m = flowsGet fs m := by
  unfold flowsGet flowsDelete
  induction fs with
  | nil => rfl
  | cons p fs ih =>
      by_cases hp : p.1 = n
      · have hfil : List.filter (fun p => ¬ p.1 == n) (p :: fs)
            = List.filter (fun p => ¬ p.1 == n) fs := by
          simp [List.filter_cons, hp]
        have h2 : ¬ (p.1 = m) := by rw [hp]; exact fun h => hnm h.symm
        rw [hfil, List.find?_cons_of_neg _ (by simpa using h2)]
        exact ih
      · have hfil : List.filter (fun p => ¬ p.1 == n) (p :: fs)
            = p :: List.filter (fun p => ¬ p.1 == n) fs := by
          simp [List.filter_cons, hp]
        rw [hfil]
        by_cases hq : p.1 = m
        · rw [List.find?_cons_of_pos _ (by simpa using hq),
            List.find?_cons_of_pos _ (by simpa using hq)]
        · rw [List.find?_cons_of_neg _ (by simpa using hq),
            List.find?_cons_of_neg _ (by simpa using hq)]
          exact ih

lemma flowsDelete_absent (fs : Flows) (n : String)
    (h : flowsGet fs n = none) : flowsDelete fs n = fs := by
  unfold flowsGet at h
  unfold flowsDelete
  induction fs with
  | nil => rfl
  | cons p fs ih =>
      by_cases hp : p.1 = n
      · rw [List.find?_cons_of_pos] at h
        · simp at h
        · simpa using hp
      · rw [List.find?_cons_of_neg] at h
        · simpa [List.filter_cons, hp] using ih h
        · simpa using hp

lemma execLoop_cons_wait (env : Nat → DispatchResult) (i : Nat) (st : Step)
    (rest : List Step) (hw : st.isWait = true) :
    execLoop env i (st :: rest) = execLoop env (i + 1) rest := by
  simp [execLoop, hw]

lemma execLoop_cons_fail (env : Nat → DispatchResult) (i : Nat) (st : Step)
    (rest : List Step) (msg : String) (hw : st.isWait = false)
    (hf : stepFailure (env i) = some msg) :
    execLoop env i (st :: rest) = ([(i, st)], [ReportAttempt.failure st msg]) := by
  simp [execLoop, hw, hf]

lemma execLoop_cons_ok (env : Nat → DispatchResult) (i : Nat) (st : Step)
    (rest : List Step) (hw : st.isWait = false)
    (hf : stepFailure (env i) = none) :
    execLoop env i (st :: rest)
      = ((i, st) :: (execLoop env (i + 1) rest).1, (execLoop env (i + 1) rest).2) := by
  simp [execLoop, hw, hf]

lemma execLoop_append_ok (env : Nat → DispatchResult) (suffix : List Step) :
    ∀ (pre : List Step) (i : Nat),
      (∀ j st, pre.get? j = some st → iterOk env (i + j) st) →
      execLoop env i (pre ++ suffix)
        = ((dispatchedPrefix i pre) ++ (execLoop env (i + pre.length) suffix).1,
           (execLoop env (i + pre.length) suffix).2) := by
  intro pre
  induction pre with
  | nil => intro i h; simp [dispatchedPrefix]
  | cons st rest ih =>
      intro i h
      have hhead : iterOk env (i + 0) st := h 0 st rfl
      rw [Nat.add_zero] at hhead
      have htail : ∀ j stj, rest.get? j = some stj → iterOk env ((i + 1) + j) stj := by
        intro j stj hj
        have := h (j + 1) stj (by simpa using hj)
        rwa [show i + (j + 1) = (i + 1) + j by omega] at this
      have hlen : i + (st :: rest).length = (i + 1) + rest.length := by
        simp only [List.length_cons]
        omega
      rw [List.cons_append, hlen]
      by_cases hw : st.isWait = true
      · rw [execLoop_cons_wait env i st (rest ++ suffix) hw, ih (i + 1) htail]
        simp [dispatchedPrefix, hw]
      · have hw' : st.isWait = false := by
          revert hw; cases st.isWait <;> simp
        have hok : stepFailure (env i) = none := by
          rcases hhead with h1 | h1
          · exact absurd h1 hw
          · exact h1
        rw [execLoop_cons_ok env i st (rest ++ suffix) hw' hok, ih (i + 1) htail]
        simp [dispatchedPrefix, hw']

lemma pollTicks_eq_none (q : Nat → Option Elem) :
    ∀ (fuel k : Nat), (∀ j, k ≤ j → j ≤ k + fuel → q (100 * j) = none) →
      pollTicks q fuel k = none := by
  intro fuel
  induction fuel with
  | zero =>
      intro k h
      have := h k le_rfl (by omega)
      simp [pollTicks, this]
  | succ fuel ih =>
      intro k h
      have hk := h k le_rfl (by omega)
      have htail : ∀ j, k + 1 ≤ j → j ≤ (k + 1) + fuel → q (100 * j) = none := by
        intro j h1 h2
        exact h j (by omega) (by omega)
      simp [pollTicks, hk, ih (k + 1) htail]

lemma pollTicks_some (q : Nat → Option Elem) :
    ∀ (fuel k t : Nat) (e : Elem), pollTicks q fuel k = some (t, e) →
      q t = some e ∧ ∃ j, t = 100 * j ∧ k ≤ j ∧ j ≤ k + fuel := by
  intro fuel
  induction fuel with
  | zero =>
      intro k t e h
      simp only [pollTicks] at h
      cases hq : q (100 * k) with
      | none => rw [hq] at h; simp at h
      | some e' =>
          rw [hq] at h
          simp only [Option.some.injEq, Prod.mk.injEq] at h
          refine ⟨?_, k, ?_, le_rfl, by omega⟩
          · rw [← h.1, hq, h.2]
          · omega
  | succ fuel ih =>
      intro k t e h
      simp only [pollTicks] at h
      cases hq : q (100 * k) with
      | none =>
          rw [hq] at h
          rcases ih (k + 1) t e h with ⟨h1, j, h2, h3, h4⟩
          exact ⟨h1, j, h2, by omega, by omega⟩
      | some e' =>
          rw [hq] at h
          simp only [Option.some.injEq, Prod.mk.injEq] at h
          refine ⟨?_, k, ?_, le_rfl, by omega⟩
          · rw [← h.1, hq, h.2]
          · omega

lemma lookupStr_set_same (m : List (Nat × String)) (k : Nat) (v : String) :
    lookupStr (setStr m k v) k = some v := by
  simp [lookupStr, setStr, List.find?_cons]

lemma obsRun_append (page : Nat → PageElem) (sel : Nat → String) :
    ∀ (l1 l2 : List PageEvent) (s : ObsState),
      obsRun page sel s (l1 ++ l2)
        = ((obsRun page sel (obsRun page sel s l1).1 l2).1,
           (obsRun page sel s l1).2 ++ (obsRun page sel (obsRun page sel s l1).1 l2).2) := by
  intro l1
  induction l1 with
  | nil => intro l2 s; simp [obsRun]
  | cons e es ih =>
      intro l2 s
      simp only [List.cons_append, obsRun, List.append_eq]
      rw [ih l2 (obsStep page sel s e).1]
      simp [List.append_assoc]

lemma obsRun_edits (page : Nat → PageElem) (sel : Nat → String) (x : Nat) :
    ∀ (vs : List String) (v : String) (s : ObsState),
      ∃ s', obsRun page sel s ((vs ++ [v]).map (PageEvent.edit x)) = (s', [])
        ∧ s'.active = some x
        ∧ lookupStr s'.content x = some v
        ∧ s'.lastRecordedValue = s.lastRecordedValue := by
  intro vs
  induction vs with
  | nil =>
      intro v s
      refine ⟨{ s with active := some x, content := setStr s.content x v }, ?_, rfl, ?_, rfl⟩
      · simp [obsRun, obsStep]
      · exact lookupStr_set_same _ _ _
  | cons v0 vs ih =>
      intro v s
      rcases ih v { s with active := some x, content := setStr s.content x v0 }
        with ⟨s', h1, h2, h3, h4⟩
      refine ⟨s', ?_, h2, h3, by simpa using h4⟩
      simp only [List.cons_append, List.map_cons, obsRun, obsStep, List.append_eq]
      rw [h1]
      simp

/-! ## The claims -/

/-- Claim C1 fails on a code bug in its reporting half, shown at a
concrete failing input.  With the oracle `env1` failing the third
iteration, the replay of the four-step tail aborts as the claim says —
the dispatched steps are exactly the successful click plus the failing
click, the trailing change step is never attempted, and exactly one
failure report is attempted, carrying the failing step and the reason,
whose template would read as the serialized step plus reason — but the
page-side evaluation of the injected reporter throws a `ReferenceError`
(its free `step` is lost when `chrome.scripting.executeScript`
serializes the function), so the alerts the user actually sees are
empty: no failure containing the serialized failing step ever reaches
the user, where the claim requires exactly one. -/
theorem C1_reporting_bug :
    execLoop env1 0
        [Step.wait 200, Step.click "#a" "A" 0, Step.click "#b" "B" 0,
         Step.change "#c" "x" 0]
      = ([(1, Step.click "#a" "A" 0), (2, Step.click "#b" "B" 0)],
         [ReportAttempt.failure (Step.click "#b" "B" 0)
            "Element not found for selector: #b"])
    ∧ intendedFailureAlert (Step.click "#b" "B" 0)
        "Element not found for selector: #b"
      = "Replay failed at step: " ++ jsonStep (Step.click "#b" "B" 0)
          ++ "\nError: Element not found for selector: #b"
    ∧ runInjectedReport (ReportAttempt.failure (Step.click "#b" "B" 0)
          "Element not found for selector: #b")
      = Except.error "Uncaught ReferenceError: step is not defined"
    ∧ displayedAlerts [ReportAttempt.failure (Step.click "#b" "B" 0)
          "Element not found for selector: #b"] = [] := by
  refine ⟨by decide, rfl, rfl, rfl⟩

/-- Claim C2: for two consecutively accepted action reports at `t0` and
`t1`, the segment appended between the two action steps is exactly one
wait step of duration `t1 - t0` when the gap exceeds 100 ms, and empty
otherwise. -/
theorem C2_wait_synthesis (s : BgState) (a1 a2 : Action) (f1 f2 t0 t1 : Nat)
    (_h01 : t0 ≤ t1) :
    (handleRecordAction s a1 f1 t0).recordedSteps.getLast? = some (a1.toStep f1)
    ∧ (handleRecordAction (handleRecordAction s a1 f1 t0) a2 f2 t1).recordedSteps
        = (handleRecordAction s a1 f1 t0).recordedSteps
            ++ (if t1 - t0 > 100 then [Step.wait (t1 - t0)] else [])
            ++ [a2.toStep f2] := by
  constructor
  · simp [handleRecordAction]
  · simp only [handleRecordAction]
    by_cases hgap : t1 - t0 > 100 <;> simp [hgap]

/-- Witness for C2: a session whose last report was accepted at
`t0 = 1500`; the next report at `t1 = 1700` is preceded by exactly one
200 ms wait step, and a further report at 1760 (gap 60 ms) appends no
wait. -/
theorem C2_wait_witness :
    (100 < 1700 - 1500 ∧
      (handleRecordAction
          (handleRecordAction ⟨true, [Step.goto "https://x/form" 0], 1000, some 7⟩
            (Action.click "#submit" "Go") 0 1500)
          (Action.change "#name" "Ada") 0 1700).recordedSteps
        = (handleRecordAction ⟨true, [Step.goto "https://x/form" 0], 1000, some 7⟩
            (Action.click "#submit" "Go") 0 1500).recordedSteps
            ++ [Step.wait 200] ++ [(Action.change "#name" "Ada").toStep 0])
    ∧ (¬ 100 < 1760 - 1700 ∧
      (handleRecordAction
          (handleRecordAction ⟨true, [Step.goto "https://x/form" 0], 1000, some 7⟩
            (Action.click "#submit" "Go") 0 1700)
          (Action.change "#name" "Ada") 0 1760).recordedSteps
        = (handleRecordAction ⟨true, [Step.goto "https://x/form" 0], 1000, some 7⟩
            (Action.click "#submit" "Go") 0 1700).recordedSteps
            ++ [] ++ [(Action.change "#name" "Ada").toStep 0]) := by
  constructor
  · refine ⟨by decide, ?_⟩
    have h := (C2_wait_synthesis ⟨true, [Step.goto "https://x/form" 0], 1000, some 7⟩
        (Action.click "#submit" "Go") (Action.change "#name" "Ada") 0 0 1500 1700
        (by decide)).2
    simpa using h
  · refine ⟨by decide, ?_⟩
    have h := (C2_wait_synthesis ⟨true, [Step.goto "https://x/form" 0], 1000, some 7⟩
        (Action.click "#submit" "Go") (Action.change "#name" "Ada") 0 0 1700 1760
        (by decide)).2
    simpa using h

/-- Claim C3: a `recordAction` report mutates the session only when the
controller is recording and the report comes from the bound tab: any
report arriving while idle or from another tab is discarded unchanged,
and over a whole interleaved stream the resulting state is that of
processing only the bound tab's reports. -/
theorem C3_single_tab_binding (s : BgState) (rs : List Report) :
    (∀ r : Report, ¬ (s.isRecording = true ∧ s.recordingTabId = some r.tabId) →
        onContentMessage s r = s)
    ∧ (s.isRecording = false → processReports s rs = s)
    ∧ (∀ A : Nat, s.isRecording = true → s.recordingTabId = some A →
        processReports s rs = processReports s (rs.filter (fun r => r.tabId == A))) := by
  refine ⟨?_, processReports_of_not_recording s rs, ?_⟩
  · intro r h
    unfold onContentMessage
    rw [if_neg h]
  · intro A h1 h2
    exact processReports_filter_bound s A rs h1 h2

/-- Witness for C3: with tab 7 bound, an interleaving with reports from
the unbound tab 9 yields the same state as the tab-7 reports alone; an
idle controller ignores the whole stream; a single wrong-tab report is
dropped. -/
theorem C3_binding_witness :
    (onContentMessage ⟨true, [], 0, some 7⟩ ⟨9, 0, Action.click "#b" "B", 50⟩
        = ⟨true, [], 0, some 7⟩)
    ∧ (processReports ⟨false, [], 0, none⟩
        [⟨7, 0, Action.click "#a" "A", 10⟩, ⟨9, 0, Action.click "#b" "B", 20⟩]
        = ⟨false, [], 0, none⟩)
    ∧ (processReports ⟨true, [], 0, some 7⟩
        [⟨7, 0, Action.click "#a" "A", 10⟩, ⟨9, 0, Action.click "#b" "B", 20⟩,
         ⟨7, 0, Action.change "#n" "Ada", 30⟩]
        = processReports ⟨true, [], 0, some 7⟩
            [⟨7, 0, Action.click "#a" "A", 10⟩, ⟨7, 0, Action.change "#n" "Ada", 30⟩]) := by
  refine ⟨?_, ?_, ?_⟩
  · exact (C3_single_tab_binding ⟨true, [], 0, some 7⟩ []).1
      ⟨9, 0, Action.click "#b" "B", 50⟩ (by decide)
  · exact (C3_single_tab_binding ⟨false, [], 0, none⟩
      [⟨7, 0, Action.click "#a" "A", 10⟩, ⟨9, 0, Action.click "#b" "B", 20⟩]).2.1 rfl
  · have h := (C3_single_tab_binding ⟨true, [], 0, some 7⟩
      [⟨7, 0, Action.click "#a" "A", 10⟩, ⟨9, 0, Action.click "#b" "B", 20⟩,
       ⟨7, 0, Action.change "#n" "Ada", 30⟩]).2.2 7 rfl rfl
    simpa using h

/-- Claim C4 is false as stated: three consecutive edits to the input
element followed by one loss of focus (blur) produce NO `change` report
at all — the "Mousedown-is-King" observer registers no blur listener —
whereas the claim demands exactly one report carrying the final value
"abc". -/
theorem C4_blur_counterexample :
    ((obsRun page0 sel0 ⟨none, [], []⟩
        [PageEvent.edit 0 "a", PageEvent.edit 0 "ab", PageEvent.edit 0 "abc",
         PageEvent.blur]).2.filter Action.isChange) = []
    ∧ ([] : List Action) ≠ [Action.change (sel0 0) "abc"] := by
  constructor
  · decide
  · decide

/-- Claim C4 (amended): in the authoritative pointer-down-first observer
the flush trigger is a pointer press away from the focused editable
element, not blur: N consecutive edits to an editable element followed
by one mousedown elsewhere produce exactly one `change` report carrying
the final settled value, and the edits themselves (intermediate
keystrokes) are never individually reported. -/
theorem C4_flush_on_mousedown (page : Nat → PageElem) (sel : Nat → String)
    (s0 : ObsState) (x t : Nat) (vs : List String) (v : String)
    (hflush : flushable page x = true)
    (hread : (page x).isContentEditable = true ∨ (page x).hasValue = true)
    (hne : t ≠ x)
    (hdedup : lookupStr s0.lastRecordedValue x ≠ some v) :
    (obsRun page sel s0 ((vs ++ [v]).map (PageEvent.edit x))).2 = []
    ∧ ((obsRun page sel s0 (((vs ++ [v]).map (PageEvent.edit x))
          ++ [PageEvent.mousedown t])).2).filter Action.isChange
        = [Action.change (sel x) v] := by
  rcases obsRun_edits page sel x vs v s0 with ⟨s', h1, hact, hcont, hlast⟩
  have hco : contentOf page s' x = some v := by
    unfold contentOf
    rcases hread with h | h
    · simp [h, hcont]
    · by_cases hce : (page x).isContentEditable
      · simp [hce, hcont]
      · simp [hce, h, hcont]
  have hn : ¬ lookupStr s'.lastRecordedValue x = some v := by
    rw [hlast]
    exact hdedup
  have hric : recordInputChange page sel s' x
      = ({ s' with lastRecordedValue := setStr s'.lastRecordedValue x v },
         [Action.change (sel x) v]) := by
    unfold recordInputChange
    rw [hco]
    simp [hn]
  have hmd : (obsStep page sel s' (PageEvent.mousedown t)).2
      = [Action.change (sel x) v, Action.click (sel t) (labelOf s' t)] := by
    show (onMouseDown page sel s' t).2 = _
    unfold onMouseDown
    rw [hact]
    have hxt : x ≠ t := fun h => hne h.symm
    simp [hxt, hflush, hric]
  constructor
  · rw [h1]
  · rw [obsRun_append page sel ((vs ++ [v]).map (PageEvent.edit x))
        [PageEvent.mousedown t] s0, h1]
    simp only [obsRun, List.append_nil, List.nil_append]
    rw [hmd]
    simp [Action.isChange]

/-- Witness for the amended C4: three edits then a press on the `div`
produce no intermediate report and exactly one `change` with the final
value. -/
theorem C4_flush_witness :
    (obsRun page0 sel0 ⟨none, [], []⟩
        [PageEvent.edit 0 "a", PageEvent.edit 0 "ab", PageEvent.edit 0 "abc"]).2 = []
    ∧ ((obsRun page0 sel0 ⟨none, [], []⟩
        [PageEvent.edit 0 "a", PageEvent.edit 0 "ab", PageEvent.edit 0 "abc",
         PageEvent.mousedown 1]).2).filter Action.isChange
        = [Action.change (sel0 0) "abc"] := by
  have h := C4_flush_on_mousedown page0 sel0 ⟨none, [], []⟩ 0 1 ["a", "ab"] "abc"
      (by decide) (Or.inr rfl) (by decide) (by decide)
  simpa using h

/-- Claim C5: for every element carrying an identifier, the selector
resolver returns `#id` (under the platform's `CSS.escape`), regardless
of the element's depth in the document, its other attributes, or its
siblings — the identifier branch returns before any other strategy is
consulted. -/
theorem C5_id_selector (esc : String → String) (doc : DomNode) (path : List Nat)
    (e : DomNode) (he : elemAt doc path = some e) (hid : e.id ≠ "") :
    getSelector esc doc path = "#" ++ esc e.id := by
  unfold getSelector
  rw [he]
  simp [hid]

/-- Witness for C5: the nested button resolves to `#submit-btn` with the
identity escape. -/
theorem C5_id_witness :
    getSelector (fun s => s) doc5 [0, 1, 0] = "#submit-btn" := by
  have h := C5_id_selector (fun s => s) doc5 [0, 1, 0]
      (DomNode.mk "BUTTON" "submit-btn" [("name", "go")] []) rfl (by decide)
  simpa using h

/-- Claim C6: running a flow that is absent, empty, or does not start
with a `goto` step yields a reported precondition error and no
execution at all — no tab is created and no step dispatched. -/
theorem C6_preconditions (fs : Flows) (name : String) (env : Nat → DispatchResult)
    (h : flowsGet fs name = none ∨ flowsGet fs name = some []
         ∨ ∃ st0 rest, flowsGet fs name = some (st0 :: rest) ∧ st0.isGoto = false) :
    (∃ m, handleRunFlow fs name env = RunFlowResult.precondError m)
    ∧ ∀ url ds al, handleRunFlow fs name env ≠ RunFlowResult.started url ds al := by
  have hpe : ∃ m, handleRunFlow fs name env = RunFlowResult.precondError m := by
    rcases h with h | h | ⟨st0, rest, h, hg⟩
    · refine ⟨"Error: Flow not found.", ?_⟩
      unfold handleRunFlow
      rw [h]
    · refine ⟨"Error: Flow not found.", ?_⟩
      unfold handleRunFlow
      rw [h]
    · refine ⟨"Error: Flow must start with a \"goto\".", ?_⟩
      unfold handleRunFlow
      rw [h]
      cases st0 with
      | goto u f => simp [Step.isGoto] at hg
      | wait d => rfl
      | click a b c => rfl
      | change a b c => rfl
  rcases hpe with ⟨m, hm⟩
  refine ⟨⟨m, hm⟩, ?_⟩
  intro url ds al hcon
  rw [hm] at hcon
  exact RunFlowResult.noConfusion hcon

/-- Witness for C6: a stored flow whose first step is a click (not a
`goto`) is rejected with a precondition error and never started. -/
theorem C6_precond_witness :
    (∃ m, handleRunFlow [("f1", [Step.click "#a" "" 0])] "f1" env6
        = RunFlowResult.precondError m)
    ∧ ∀ url ds al, handleRunFlow [("f1", [Step.click "#a" "" 0])] "f1" env6
        ≠ RunFlowResult.started url ds al :=
  C6_preconditions [("f1", [Step.click "#a" "" 0])] "f1" env6
    (Or.inr (Or.inr ⟨Step.click "#a" "" 0, [], rfl, rfl⟩))

/-- Claim C7 is false in two details: (1) the timeout failure's reason
string is `Element not found for selector: #a`, not "element not
found"; (2) the final poll tick happens at 7100 ms — the element is
checked before the timeout comparison — so an element appearing exactly
then is still resolved and acted upon, outside the 7 s timeout. -/
theorem C7_counterexample :
    waitForElement (fun _ => none) "#a" 7000
        = Except.error "Element not found for selector: #a"
    ∧ "Element not found for selector: #a" ≠ "element not found"
    ∧ waitForElement (fun t => if t = 7100 then some elemA else none) "#a" 7000
        = Except.ok (7100, elemA) := by
  refine ⟨rfl, by decide, rfl⟩

/-- Claim C7 (amended): the frame executor resolves selectors by polling
at a fixed 100 ms interval; when the element is absent at every tick up
to and including the final tick at 7100 ms (the first tick past the 7 s
timeout, which still checks the element before rejecting),
`waitForElement` fails with `Element not found for selector: <sel>`;
on success the element was present at a 100 ms tick no later than
7100 ms; and a resolution failure propagates as the step's failure, so
the action is performed only on an element found within that window. -/
theorem C7_polling (q : Nat → Option Elem) (selector : String) (st : Step) :
    ((∀ j, 1 ≤ j → j ≤ 71 → q (100 * j) = none) →
      waitForElement q selector 7000
        = Except.error ("Element not found for selector: " ++ selector))
    ∧ (∀ t e, waitForElement q selector 7000 = Except.ok (t, e) →
        q t = some e ∧ ∃ j, t = 100 * j ∧ 1 ≤ j ∧ j ≤ 71)
    ∧ (∀ msg, waitForElement q st.selectorStr 7000 = Except.error msg →
        executeStep q st = Except.error msg) := by
  refine ⟨?_, ?_, ?_⟩
  · intro h
    unfold waitForElement
    rw [pollTicks_eq_none q (7000 / 100) 1 (fun j h1 h2 => h j h1 (by omega))]
  · intro t e h
    unfold waitForElement at h
    cases hp : pollTicks q (7000 / 100) 1 with
    | none => rw [hp] at h; exact absurd h (by simp)
    | some te =>
        rw [hp] at h
        simp only [Except.ok.injEq] at h
        rw [h] at hp
        rcases pollTicks_some q (7000 / 100) 1 t e hp with ⟨h1, j, h2, h3, h4⟩
        exact ⟨h1, j, h2, h3, by omega⟩
  · intro msg h
    unfold executeStep
    rw [h]

/-- Witness for the amended C7: a page on which the selector never
matches makes `waitForElement` fail with the full reason string. -/
theorem C7_polling_witness :
    waitForElement (fun _ => none) "#sub" 7000
      = Except.error ("Element not found for selector: " ++ "#sub") :=
  (C7_polling (fun _ => none) "#sub" (Step.click "#sub" "" 0)).1
    (fun _ _ _ => rfl)

/-- Claim C8 is false in its reason string: a `change` against an
element that is neither input-like nor content-editable fails with the
message `Cannot set value on a non-input, non-contenteditable
element.`, not with reason "unsupported target". -/
theorem C8_reason_counterexample :
    applyChange ⟨false, "", false, "", [], 0⟩ "x"
      = Except.error "Cannot set value on a non-input, non-contenteditable element."
    ∧ "Cannot set value on a non-input, non-contenteditable element."
        ≠ "unsupported target" := by
  exact ⟨rfl, by decide⟩

/-- Claim C8 (amended): for a resolved `change` target, an input-like
element gets `step.value` assigned to its `value`; a non-input
content-editable element gets it assigned to its text content; any
other element fails with the message `Cannot set value on a non-input,
non-contenteditable element.` and is not mutated; after a successful
assignment the executor dispatches `input`, `change` and `blur` events
on the element; and `executeStep` applies exactly this to the element
`waitForElement` resolved. -/
theorem C8_change_branches (e : Elem) (v : String) :
    (e.hasValue = true →
      applyChange e v = Except.ok { e with
        value := v, dispatched := e.dispatched ++ ["input", "change", "blur"] })
    ∧ (e.hasValue = false → e.isContentEditable = true →
      applyChange e v = Except.ok { e with
        innerText := v, dispatched := e.dispatched ++ ["input", "change", "blur"] })
    ∧ (e.hasValue = false → e.isContentEditable = false →
      applyChange e v
        = Except.error "Cannot set value on a non-input, non-contenteditable element.")
    ∧ (∀ (q : Nat → Option Elem) (selv : String) (f t : Nat) (e2 : Elem),
        waitForElement q (Step.change selv v f).selectorStr 7000 = Except.ok (t, e2) →
        executeStep q (Step.change selv v f)
          = (applyChange e2 v).map (ExecEffect.changed t)) := by
  refine ⟨?_, ?_, ?_, ?_⟩
  · intro h
    simp [applyChange, h]
  · intro h1 h2
    simp [applyChange, h1, h2]
  · intro h1 h2
    simp [applyChange, h1, h2]
  · intro q selv f t e2 h
    unfold executeStep
    rw [h]

/-- Witness for the amended C8: the three branches at concrete
elements — a text input, a content-editable block, and a plain div. -/
theorem C8_change_witness :
    applyChange ⟨true, "", false, "", [], 0⟩ "Ada"
      = Except.ok ⟨true, "Ada", false, "", ["input", "change", "blur"], 0⟩
    ∧ applyChange ⟨false, "", true, "old", [], 0⟩ "Ada"
      = Except.ok ⟨false, "", true, "Ada", ["input", "change", "blur"], 0⟩
    ∧ applyChange ⟨false, "", false, "", [], 0⟩ "Ada"
      = Except.error "Cannot set value on a non-input, non-contenteditable element." := by
  refine ⟨?_, ?_, ?_⟩
  · have h := (C8_change_branches ⟨true, "", false, "", [], 0⟩ "Ada").1 rfl
    simpa using h
  · have h := (C8_change_branches ⟨false, "", true, "old", [], 0⟩ "Ada").2.1 rfl rfl
    simpa using h
  · exact (C8_change_branches ⟨false, "", false, "", [], 0⟩ "Ada").2.2.1 rfl rfl

/-- Claim C9: a persisted flow changes only through save or delete of
its own name: saving while recording stores exactly the session's steps
under the name (overwriting any previous binding entirely) and leaves
every other name's steps unchanged; deleting a name leaves every other
name unchanged; and deleting a missing name leaves the whole store
intact and raises no error. -/
theorem C9_store_locality (s : BgState) (fs : Flows) (n m : String)
    (hrec : s.isRecording = true) (hnm : m ≠ n) :
    flowsGet (handleStopRecordingAndSave s fs n).1 n = some s.recordedSteps
    ∧ flowsGet (handleStopRecordingAndSave s fs n).1 m = flowsGet fs m
    ∧ flowsGet (handleDeleteFlow fs n) m = flowsGet fs m
    ∧ (flowsGet fs n = none → handleDeleteFlow fs n = fs) := by
  have hs : (handleStopRecordingAndSave s fs n).1 = flowsSet fs n s.recordedSteps := by
    unfold handleStopRecordingAndSave
    simp [hrec]
  refine ⟨?_, ?_, ?_, ?_⟩
  · rw [hs]
    exact flowsGet_set_same fs n s.recordedSteps
  · rw [hs]
    exact flowsGet_set_other fs n m s.recordedSteps hnm
  · exact flowsGet_delete_other fs n m hnm
  · intro h
    exact flowsDelete_absent fs n h

/-- Witness for C9 at a two-flow store: saving over `f1` stores the
session's steps and leaves `f2` untouched; deleting `f1` leaves `f2`
untouched; deleting the missing name `nope` is the identity. -/
theorem C9_store_witness :
    flowsGet (handleStopRecordingAndSave
        ⟨true, [Step.goto "https://c/" 0, Step.click "#x" "" 0], 99, some 3⟩
        [("f1", [Step.goto "https://a/" 0]), ("f2", [Step.goto "https://b/" 0])] "f1").1 "f1"
      = some [Step.goto "https://c/" 0, Step.click "#x" "" 0]
    ∧ flowsGet (handleStopRecordingAndSave
        ⟨true, [Step.goto "https://c/" 0, Step.click "#x" "" 0], 99, some 3⟩
        [("f1", [Step.goto "https://a/" 0]), ("f2", [Step.goto "https://b/" 0])] "f1").1 "f2"
      = flowsGet [("f1", [Step.goto "https://a/" 0]), ("f2", [Step.goto "https://b/" 0])] "f2"
    ∧ flowsGet (handleDeleteFlow
        [("f1", [Step.goto "https://a/" 0]), ("f2", [Step.goto "https://b/" 0])] "f1") "f2"
      = flowsGet [("f1", [Step.goto "https://a/" 0]), ("f2", [Step.goto "https://b/" 0])] "f2"
    ∧ handleDeleteFlow
        [("f1", [Step.goto "https://a/" 0]), ("f2", [Step.goto "https://b/" 0])] "nope"
      = [("f1", [Step.goto "https://a/" 0]), ("f2", [Step.goto "https://b/" 0])] := by
  have h := C9_store_locality
      ⟨true, [Step.goto "https://c/" 0, Step.click "#x" "" 0], 99, some 3⟩
      [("f1", [Step.goto "https://a/" 0]), ("f2", [Step.goto "https://b/" 0])]
      "f1" "f2" rfl (by decide)
  have h2 := C9_store_locality
      ⟨true, [Step.goto "https://c/" 0, Step.click "#x" "" 0], 99, some 3⟩
      [("f1", [Step.goto "https://a/" 0]), ("f2", [Step.goto "https://b/" 0])]
      "nope" "f2" rfl (by decide)
  exact ⟨h.1, h.2.1, h.2.2.1, h2.2.2.2 rfl⟩

/-- Claim C10: during replay, a dispatch that completes with no reply
object (`undefined`) is treated as success and the loop proceeds to the
next step, as is a reply with a non-error status; only a thrown
dispatch or an explicit reply with `status: "error"` aborts the run. -/
theorem C10_undefined_reply (env : Nat → DispatchResult) (i : Nat)
    (st : Step) (rest : List Step) (hw : st.isWait = false) :
    (env i = DispatchResult.replied none →
      execLoop env i (st :: rest)
        = ((i, st) :: (execLoop env (i + 1) rest).1, (execLoop env (i + 1) rest).2))
    ∧ (∀ resp, env i = DispatchResult.replied (some resp) → resp.status ≠ "error" →
      execLoop env i (st :: rest)
        = ((i, st) :: (execLoop env (i + 1) rest).1, (execLoop env (i + 1) rest).2))
    ∧ (∀ msg, env i = DispatchResult.threw msg →
      execLoop env i (st :: rest) = ([(i, st)], [ReportAttempt.failure st msg]))
    ∧ (∀ resp, env i = DispatchResult.replied (some resp) → resp.status = "error" →
      execLoop env i (st :: rest) = ([(i, st)], [ReportAttempt.failure st resp.message])) := by
  refine ⟨?_, ?_, ?_, ?_⟩
  · intro h
    exact execLoop_cons_ok env i st rest hw (by rw [h]; rfl)
  · intro resp h hs
    refine execLoop_cons_ok env i st rest hw ?_
    rw [h]
    simp [stepFailure, hs]
  · intro msg h
    exact execLoop_cons_fail env i st rest msg hw (by rw [h]; rfl)
  · intro resp h hs
    refine execLoop_cons_fail env i st rest resp.message hw ?_
    rw [h]
    simp [stepFailure, hs]

/-- Witness for C10: with an `undefined` reply the single click step is
dispatched, treated as a success, and the run completes. -/
theorem C10_reply_witness :
    execLoop env10 0 [Step.click "#a" "A" 0]
      = ([(0, Step.click "#a" "A" 0)], [ReportAttempt.completion]) := by
  have h := (C10_undefined_reply env10 0 (Step.click "#a" "A" 0) [] rfl).1 rfl
  simpa [execLoop] using h

end RepOp

